import Mathlib

/-!
Verification of the pond client session core (`src/client/client.go`).

The Go code is shallowly embedded: byte strings become `List Nat`, the
protobuf records become Lean structures with executable marshal/unmarshal
functions, the external cryptographic primitives (ed25519, curve25519,
bbssig) are modelled by executable idealized functions, and the stateful
Go functions become pure functions returning updated values.
-/

namespace Pond

/-- Byte strings (`[]byte` in Go) are lists of naturals; each entry models
one byte. -/
abbrev Bytes := List Nat

/-! ## Wire-encoding model

The protobuf serialization used by the client (`goprotobuf`) is external to
the repository (spec §1 declares the record format out of scope).  We model
it by an executable, injective length-prefixed encoding: every field is
emitted with a 4-byte little-endian length, and unmarshalling is the left
inverse of marshalling. -/

/-- Four-byte little-endian encoding of a length or number. -/
def encodeLen (n : Nat) : Bytes :=
  [n % 256, n / 256 % 256, n / 65536 % 256, n / 16777216 % 256]

/-- Read a 4-byte little-endian number from the head of a byte string. -/
def readLen4 : Bytes → Option (Nat × Bytes)
  | a :: b :: c :: d :: rest => some (a + 256 * b + 65536 * c + 16777216 * d, rest)
  | _ => none

/-- Emit a length-prefixed field. -/
def putField (b : Bytes) : Bytes := encodeLen b.length ++ b

/-- Read a length-prefixed field. -/
def readField (s : Bytes) : Option (Bytes × Bytes) :=
  match readLen4 s with
  | none => none
  | some (n, rest) => if rest.length < n then none else some (rest.take n, rest.drop n)

theorem readLen4_encodeLen (n : Nat) (rest : Bytes) (h : n < 4294967296) :
    readLen4 (encodeLen n ++ rest) = some (n, rest) := by
  simp only [encodeLen, List.cons_append, List.nil_append, readLen4]
  congr 1
  congr 1
  omega

theorem readField_putField (b rest : Bytes) (h : b.length < 4294967296) :
    readField (putField b ++ rest) = some (b, rest) := by
  simp only [putField, List.append_assoc, readField, readLen4_encodeLen _ _ h]
  simp [List.take_left, List.drop_left]

/-! ## Crypto models

The ed25519/curve25519/bbssig primitives live outside this repository and
are modelled by executable idealized functions:
an ed25519 private key is 64 bytes whose second half is the public key
(as in `agl/ed25519`), a signature is a 64-byte digest of (public key,
message) and verifies exactly when it equals that digest, and curve25519
base-point multiplication is an arbitrary fixed bytewise function. -/

/-- The public key half of an `agl/ed25519` private key (`priv[32:]`). -/
def ed25519PubOf (priv : Bytes) : Bytes := priv.drop 32

/-- Idealized 64-byte signature digest of a public key and a message. -/
def edDigest (pub msg : Bytes) : Bytes :=
  (List.range 64).map fun i =>
    (pub.foldl (fun a x => a * 3 + x) 0 + msg.foldl (fun a x => a * 7 + x + 1) 0 + i) % 256

/-- Model of `ed25519.Sign`. -/
def ed25519Sign (priv msg : Bytes) : Bytes := edDigest (ed25519PubOf priv) msg

/-- Model of `ed25519.Verify`: succeeds exactly on the digest for this
public key and message. -/
def ed25519Verify (pub msg sig : Bytes) : Bool := sig = edDigest pub msg

theorem length_edDigest (pub msg : Bytes) : (edDigest pub msg).length = 64 := by
  simp [edDigest]

theorem ed25519Verify_sign (priv msg : Bytes) :
    ed25519Verify (ed25519PubOf priv) msg (ed25519Sign priv msg) = true := by
  simp [ed25519Verify, ed25519Sign]

/-- Model of `curve25519.ScalarBaseMult`: a fixed bytewise function of the
private scalar (length-preserving, like the real 32-byte operation). -/
def scalarBaseMult (priv : Bytes) : Bytes := priv.map fun x => (x * 7 + 1) % 256

theorem length_scalarBaseMult (priv : Bytes) :
    (scalarBaseMult priv).length = priv.length := by
  simp [scalarBaseMult]

/-! ## bbssig model

`bbssig.Group` / `bbssig.MemberKey` are opaque capabilities (spec §1).  A
group is identified by a number; a member key records its group and a
member tag.  `MemberKey.Unmarshal(group, bytes)` fails unless the decoded
key belongs to `group`, as in the library's contract. -/

structure MemberKey where
  group : Nat
  tag : Nat
deriving DecidableEq

/-- Model of `bbssig.Group.Marshal`. -/
def groupMarshal (g : Nat) : Bytes := encodeLen g

/-- Model of `bbssig.Group.Unmarshal`. -/
def groupUnmarshal (s : Bytes) : Option Nat :=
  match readLen4 s with
  | some (g, []) => some g
  | _ => none

/-- Model of `bbssig.MemberKey.Marshal`. -/
def memberKeyMarshal (mk : MemberKey) : Bytes := encodeLen mk.group ++ encodeLen mk.tag

/-- Model of `bbssig.MemberKey.Unmarshal(group, bytes)`: parses and checks
membership of the given group. -/
def memberKeyUnmarshal (g : Nat) (s : Bytes) : Option MemberKey :=
  match readLen4 s with
  | some (gr, rest) =>
    match readLen4 rest with
    | some (tag, []) => if gr = g then some ⟨gr, tag⟩ else none
    | _ => none
  | _ => none

/-- Model of `bbssig.PrivateKey.NewMember`: issues a member key of the
issuer's group from a fresh random seed. -/
def newMember (groupPriv seed : Nat) : MemberKey := ⟨groupPriv, seed⟩

theorem groupUnmarshal_marshal (g : Nat) (h : g < 4294967296) :
    groupUnmarshal (groupMarshal g) = some g := by
  have := readLen4_encodeLen g [] h
  simp only [List.append_nil] at this
  simp [groupUnmarshal, groupMarshal, this]

theorem memberKeyUnmarshal_marshal (mk : MemberKey)
    (hg : mk.group < 4294967296) (ht : mk.tag < 4294967296) :
    memberKeyUnmarshal mk.group (memberKeyMarshal mk) = some mk := by
  have h1 := readLen4_encodeLen mk.group (encodeLen mk.tag) hg
  have h2 := readLen4_encodeLen mk.tag [] ht
  simp only [List.append_nil] at h2
  simp [memberKeyUnmarshal, memberKeyMarshal, h1, h2]

/-! ## parseServer model

`parseServer` is pond client code that is not under `src/`.
Modelled from the spec: "Validate the claimed peer server address against
address-format rules; fail with `InvalidAddress` if unparseable" — the
model accepts exactly the addresses carrying the pondserver scheme
followed by a nonempty host part.  Server addresses are byte strings
(Go strings are byte strings).  The `testing` flag is carried as in the
source but does not change well-formedness in the model. -/

/-- The bytes of the string `pondserver://`. -/
def pondScheme : Bytes := [112, 111, 110, 100, 115, 101, 114, 118, 101, 114, 58, 47, 47]

/-- Modelled from the spec: `parseServer` address-format validation
(the real parser is not in `src/`). -/
def parseServerOk (server : Bytes) (_testing : Bool) : Bool :=
  decide (server.take 13 = pondScheme) && decide (13 < server.length)

/-! ## Handshake wire records

`pond.SignedKeyExchange` and `pond.KeyExchange` with their (modelled)
marshal/unmarshal functions.  All fields are `required` in the schema, so
a successful parse yields every field. -/

structure SignedKeyExchange where
  signed : Bytes
  signature : Bytes
deriving DecidableEq

structure KeyExchange where
  publicKey : Bytes
  identityPublic : Bytes
  server : Bytes
  dh : Bytes
  group : Bytes
  groupKey : Bytes
  generation : Nat
deriving DecidableEq

def marshalSignedKeyExchange (k : SignedKeyExchange) : Bytes :=
  putField k.signed ++ putField k.signature

def unmarshalSignedKeyExchange (s : Bytes) : Option SignedKeyExchange :=
  match readField s with
  | none => none
  | some (a, s1) =>
    match readField s1 with
    | none => none
    | some (b, s2) => if s2 = [] then some ⟨a, b⟩ else none

def marshalKeyExchange (kx : KeyExchange) : Bytes :=
  putField kx.publicKey ++ putField kx.identityPublic ++ putField kx.server ++
    putField kx.dh ++ putField kx.group ++ putField kx.groupKey ++ encodeLen kx.generation

def unmarshalKeyExchange (s : Bytes) : Option KeyExchange :=
  match readField s with
  | none => none
  | some (pk, s1) =>
    match readField s1 with
    | none => none
    | some (ip, s2) =>
      match readField s2 with
      | none => none
      | some (srv, s3) =>
        match readField s3 with
        | none => none
        | some (dh, s4) =>
          match readField s4 with
          | none => none
          | some (gr, s5) =>
            match readField s5 with
            | none => none
            | some (gk, s6) =>
              match readLen4 s6 with
              | some (gen, []) => some ⟨pk, ip, srv, dh, gr, gk, gen⟩
              | _ => none

theorem unmarshalSignedKeyExchange_marshal (k : SignedKeyExchange)
    (h1 : k.signed.length < 4294967296) (h2 : k.signature.length < 4294967296) :
    unmarshalSignedKeyExchange (marshalSignedKeyExchange k) = some k := by
  have e1 := readField_putField k.signed (putField k.signature) h1
  have e2 := readField_putField k.signature [] h2
  simp only [List.append_nil] at e2
  simp [unmarshalSignedKeyExchange, marshalSignedKeyExchange, List.append_assoc, e1, e2]

theorem unmarshalKeyExchange_marshal (kx : KeyExchange)
    (h1 : kx.publicKey.length < 4294967296) (h2 : kx.identityPublic.length < 4294967296)
    (h3 : kx.server.length < 4294967296) (h4 : kx.dh.length < 4294967296)
    (h5 : kx.group.length < 4294967296) (h6 : kx.groupKey.length < 4294967296)
    (h7 : kx.generation < 4294967296) :
    unmarshalKeyExchange (marshalKeyExchange kx) = some kx := by
  have e7 := readLen4_encodeLen kx.generation [] h7
  simp only [List.append_nil] at e7
  have e1 := readField_putField kx.publicKey
    (putField kx.identityPublic ++ putField kx.server ++ putField kx.dh ++
      putField kx.group ++ putField kx.groupKey ++ encodeLen kx.generation) h1
  have e2 := readField_putField kx.identityPublic
    (putField kx.server ++ putField kx.dh ++ putField kx.group ++
      putField kx.groupKey ++ encodeLen kx.generation) h2
  have e3 := readField_putField kx.server
    (putField kx.dh ++ putField kx.group ++ putField kx.groupKey ++
      encodeLen kx.generation) h3
  have e4 := readField_putField kx.dh
    (putField kx.group ++ putField kx.groupKey ++ encodeLen kx.generation) h4
  have e5 := readField_putField kx.group
    (putField kx.groupKey ++ encodeLen kx.generation) h5
  have e6 := readField_putField kx.groupKey (encodeLen kx.generation) h6
  simp only [marshalKeyExchange, unmarshalKeyExchange, List.append_assoc] at *
  simp only [e1, e2, e3, e4, e5, e6, e7]

/-! ## The Contact data model and `processKeyExchange` -/

/-- Structure `Contact` (client.go lines 164-195).  Byte-array fields (`[32]byte`)
are byte strings; Go's zero-value arrays appear as 32 zero bytes. -/
structure Contact where
  id : Nat
  name : Bytes
  isPending : Bool
  kxsBytes : Bytes
  groupKey : Option MemberKey
  myGroupKey : Option MemberKey
  generation : Nat
  theirServer : Bytes
  theirPub : Bytes
  theirIdentityPublic : Bytes
  lastDHPrivate : Bytes
  currentDHPrivate : Bytes
  theirLastDHPublic : Bytes
  theirCurrentDHPublic : Bytes
deriving DecidableEq

/-- A freshly created pending contact (client.go lines 1818-1822): name and
id set, `isPending` true, every other field at its Go zero value. -/
def mkPendingContact (name : Bytes) (id : Nat) : Contact where
  id := id
  name := name
  isPending := true
  kxsBytes := []
  groupKey := none
  myGroupKey := none
  generation := 0
  theirServer := []
  theirPub := List.replicate 32 0
  theirIdentityPublic := List.replicate 32 0
  lastDHPrivate := List.replicate 32 0
  currentDHPrivate := List.replicate 32 0
  theirLastDHPublic := List.replicate 32 0
  theirCurrentDHPublic := List.replicate 32 0

/-- The errors `processKeyExchange` can return, one constructor per
`return` site in client.go lines 1577-1629. -/
inductive KxError where
  /-- Failure of `proto.Unmarshal` on the outer envelope. -/
  | unmarshalEnvelope
  /-- Error string: invalid signature length. -/
  | badSignatureLength
  /-- Failure of `proto.Unmarshal` on the inner payload. -/
  | unmarshalPayload
  /-- Error string: invalid public key. -/
  | badPublicKeyLength
  /-- Error string: invalid signature. -/
  | sigMismatch
  /-- Failure of `parseServer`. -/
  | badServer
  /-- Error string: invalid group. -/
  | badGroup
  /-- Error string: invalid group key. -/
  | badGroupKey
  /-- Error string: invalid public identity. -/
  | badIdentityLength
  /-- Error string: invalid public DH value. -/
  | badDHLength
deriving DecidableEq

/-- Method `Contact.processKeyExchange` (client.go lines 1577-1629).  The Go
method mutates the contact through a pointer and returns an error; the
embedding returns the (possibly partially updated) contact together with
the error.  Field writes happen at exactly the points they do in the
source: `theirPub` after the public-key length check, `theirServer`
before `parseServer` runs, `myGroupKey` when the member key parses,
`theirIdentityPublic` after its length check, and `theirCurrentDHPublic`
and `generation` after the DH length check. -/
def processKeyExchange (contact : Contact) (kxsBytes : Bytes) (testing : Bool) :
    Contact × Option KxError :=
  match unmarshalSignedKeyExchange kxsBytes with
  | none => (contact, some .unmarshalEnvelope)
  | some kxs =>
    if kxs.signature.length ≠ 64 then (contact, some .badSignatureLength)
    else
      match unmarshalKeyExchange kxs.signed with
      | none => (contact, some .unmarshalPayload)
      | some kx =>
        if kx.publicKey.length ≠ 32 then (contact, some .badPublicKeyLength)
        else
          let contact := { contact with theirPub := kx.publicKey }
          if ¬ ed25519Verify contact.theirPub kxs.signed kxs.signature then
            (contact, some .sigMismatch)
          else
            let contact := { contact with theirServer := kx.server }
            if ¬ parseServerOk contact.theirServer testing then (contact, some .badServer)
            else
              match groupUnmarshal kx.group with
              | none => (contact, some .badGroup)
              | some group =>
                match memberKeyUnmarshal group kx.groupKey with
                | none => (contact, some .badGroupKey)
                | some mk =>
                  let contact := { contact with myGroupKey := some mk }
                  if kx.identityPublic.length ≠ 32 then (contact, some .badIdentityLength)
                  else
                    let contact := { contact with theirIdentityPublic := kx.identityPublic }
                    if kx.dh.length ≠ 32 then (contact, some .badDHLength)
                    else
                      (({ contact with
                          theirCurrentDHPublic := kx.dh,
                          generation := kx.generation } : Contact), none)

/-- The spec's error taxonomy for `ApplyHandshake` (spec §4.2 steps 1-8). -/
inductive HandshakeErrClass where
  | malformedHandshake
  | invalidPublicKey
  | invalidSignature
  | invalidAddress
  | invalidGroupCredential
  | invalidDHValue
deriving DecidableEq

/-- The spec's error class of each code-level error (spec §4.2: envelope,
signature-length and payload failures are `MalformedHandshake`; both
wrong-length public key and wrong-length identity are `InvalidPublicKey`;
group and member-credential failures are `InvalidGroupCredential`). -/
def kxErrorClass : KxError → HandshakeErrClass
  | .unmarshalEnvelope => .malformedHandshake
  | .badSignatureLength => .malformedHandshake
  | .unmarshalPayload => .malformedHandshake
  | .badPublicKeyLength => .invalidPublicKey
  | .sigMismatch => .invalidSignature
  | .badServer => .invalidAddress
  | .badGroup => .invalidGroupCredential
  | .badGroupKey => .invalidGroupCredential
  | .badIdentityLength => .invalidPublicKey
  | .badDHLength => .invalidDHValue

/-- The spec's eight validation gates, written from the words of §4.2 and
evaluated in the spec's order; returns the class of the first violated
gate, `none` when all gates pass.  The signing key used for step 4 is
extracted from the payload itself (step 3). -/
def specApplyHandshakeGates (kxsBytes : Bytes) (testing : Bool) : Option HandshakeErrClass :=
  match unmarshalSignedKeyExchange kxsBytes with
  | none => some .malformedHandshake
  | some kxs =>
    if kxs.signature.length ≠ 64 then some .malformedHandshake
    else
      match unmarshalKeyExchange kxs.signed with
      | none => some .malformedHandshake
      | some kx =>
        if kx.publicKey.length ≠ 32 then some .invalidPublicKey
        else if ¬ ed25519Verify kx.publicKey kxs.signed kxs.signature then
          some .invalidSignature
        else if ¬ parseServerOk kx.server testing then some .invalidAddress
        else
          match groupUnmarshal kx.group with
          | none => some .invalidGroupCredential
          | some group =>
            match memberKeyUnmarshal group kx.groupKey with
            | none => some .invalidGroupCredential
            | some _ =>
              if kx.identityPublic.length ≠ 32 then some .invalidPublicKey
              else if kx.dh.length ≠ 32 then some .invalidDHValue
              else none

/-! ## Client identity and `newKeyExchange` -/

/-- The identity-related fields of the `client` struct (client.go lines
96-110) that `newKeyExchange` reads.  In Go, `pub`, `identityPublic` are
`[32]byte`, `priv` is `[64]byte` with `pub = priv[32:]`, `generation` is
`uint32` and `groupPriv` an opaque group private key (a group id in the
model). -/
structure ClientState where
  server : Bytes
  identityPublic : Bytes
  groupPriv : Nat
  generation : Nat
  priv : Bytes
  pub : Bytes

/-- The well-formedness the Go types and account creation guarantee:
fixed key sizes, the ed25519 keypair relation, and `uint32` range. -/
def ClientState.WF (c : ClientState) : Prop :=
  c.pub.length = 32 ∧ c.identityPublic.length = 32 ∧ c.pub = ed25519PubOf c.priv ∧
    c.generation < 4294967296 ∧ c.groupPriv < 4294967296

/-- Method `client.newKeyExchange` (client.go lines 1951-1988).  The two random
draws — the fresh DH private scalar and the fresh group-member seed — are
passed explicitly (`c.randBytes` / `c.groupPriv.NewMember(c.rand)`).
Returns the updated contact; its `kxsBytes` field is the returned byte
string. -/
def newKeyExchange (c : ClientState) (contact : Contact) (dhPriv : Bytes) (memberSeed : Nat) :
    Contact :=
  let contact := { contact with lastDHPrivate := dhPriv }
  let pub := scalarBaseMult contact.lastDHPrivate
  let groupKey := newMember c.groupPriv memberSeed
  let contact := { contact with groupKey := some groupKey }
  let kx : KeyExchange :=
    { publicKey := c.pub
      identityPublic := c.identityPublic
      server := c.server
      dh := pub
      group := groupMarshal groupKey.group
      groupKey := memberKeyMarshal groupKey
      generation := c.generation }
  let kxBytes := marshalKeyExchange kx
  let sig := ed25519Sign c.priv kxBytes
  let kxs : SignedKeyExchange := { signed := kxBytes, signature := sig }
  { contact with kxsBytes := marshalSignedKeyExchange kxs }

/-- The handshake-application step of `newContactUI` (client.go lines
1868-1878): run `processKeyExchange` on the pasted bytes; on success the
contact's `pending` flag is cleared (`contact.isPending = false`), on
error the UI reports it and loops (the partially updated contact
persists through the shared pointer). -/
def newContactUIApply (contact : Contact) (kxsBytes : Bytes) (testing : Bool) :
    Option Contact :=
  match processKeyExchange contact kxsBytes testing with
  | (c', none) => some { c' with isPending := false }
  | (_, some _) => none

/-! ## Message records and serialized sizes -/

/-- Record `pond.Message_Attachment`: a file name and contents. -/
structure Attachment where
  filename : Bytes
  contents : Bytes
deriving DecidableEq

/-- Record `pond.Message`, restricted to the fields this client sets (spec §6
"Message record").  `bodyEncoding` 0 is `RAW`.  Timestamps produced by the
client are nonnegative seconds and are modelled as naturals. -/
structure PondMessage where
  id : Nat
  time : Nat
  body : Bytes
  bodyEncoding : Nat
  inReplyTo : Option Nat
  myNextDh : Bytes
  files : List Attachment
deriving DecidableEq

/-- Number of bytes of the protobuf varint encoding of `n` (10-step fuel
covers every value below `2^70`; all encoded values are 64-bit). -/
def varintSizeFuel : Nat → Nat → Nat
  | 0, _ => 1
  | fuel + 1, n => if n < 128 then 1 else 1 + varintSizeFuel fuel (n / 128)

def varintSize (n : Nat) : Nat := varintSizeFuel 10 n

/-- Wire size of a length-delimited protobuf field with a one-byte tag. -/
def lenFieldSize (payload : Nat) : Nat := 1 + varintSize payload + payload

/-- Modelled from the spec: the serialized size of a message record under
the fixed, externally defined protobuf format (spec §1 places the schema
itself out of scope; the field set is spec §6's).  One-byte tags, varint
numeric fields, length-delimited byte fields, attachments as embedded
messages. -/
def serializedMessageSize (m : PondMessage) : Nat :=
  1 + varintSize m.id + 1 + varintSize m.time + lenFieldSize m.body.length +
    1 + varintSize m.bodyEncoding +
    (match m.inReplyTo with
     | none => 0
     | some r => 1 + varintSize r) +
    lenFieldSize m.myNextDh.length +
    ((m.files.map fun a =>
        lenFieldSize (lenFieldSize a.filename.length + lenFieldSize a.contents.length)).sum)

/-- Modelled from the spec: `pond.MaxSerializedMessage`.  The constant's
value is defined outside this repository; nothing proved here depends on
the particular value. -/
def maxSerializedMessage : Nat := 4000

/-- The candidate message `usageString` serializes (client.go lines
871-881): id 0, time `1 << 62`, the body, `RAW` encoding, reply id 1 when
`isReply`, an all-zero 32-byte DH value, and the attachments. -/
def usageCandidate (body : Bytes) (isReply : Bool) (attachments : List Attachment) :
    PondMessage where
  id := 0
  time := 4611686018427387904
  body := body
  bodyEncoding := 0
  inReplyTo := if isReply then some 1 else none
  myNextDh := List.replicate 32 0
  files := attachments

/-- The overflow flag of `usageString` (client.go lines 864-890): true
exactly when the candidate's serialized size strictly exceeds
`pond.MaxSerializedMessage`. -/
def usageStringOver (body : Bytes) (isReply : Bool) (attachments : List Attachment) : Bool :=
  serializedMessageSize (usageCandidate body isReply attachments) > maxSerializedMessage

/-! ## Compose, ack, enqueue -/

/-- The body actually placed in a composed record (client.go lines
1131-1135): a zero-length body is replaced by a single space, because
zero-length bodies are ACKs. -/
def composeBody (body : Bytes) : Bytes := if body.length = 0 then [32] else body

/-- The outgoing record built by the compose-and-send path (client.go
lines 1123-1146): the freshly drawn id and current time are passed in
(`c.randId()`, `time.Now().Unix()`), the reply reference is the pond id
of the message being replied to, and `MyNextDh` is the base-point
multiple of the contact's current DH private scalar.  The contact itself
is not modified by this path. -/
def composeMessage (dest : Contact) (id : Nat) (now : Nat) (body : Bytes)
    (inReplyTo : Option Nat) (attachments : List Attachment) : PondMessage where
  id := id
  time := now
  body := composeBody body
  bodyEncoding := 0
  inReplyTo := inReplyTo
  myNextDh := scalarBaseMult dest.currentDHPrivate
  files := attachments

/-- Structure `queuedMessage` (client.go lines 197-206); the `sent`/`acked`
timestamps are naturals with 0 meaning "not yet". -/
structure QueuedMessage where
  id : Nat
  /-- The Go field is named `to` (a reserved word here). -/
  toId : Nat
  server : Bytes
  created : Nat
  sent : Nat
  acked : Nat
  message : PondMessage
deriving DecidableEq

/-- Modelled from the spec: `client.send` is not in `src/`; per §4.3 it
wraps the record for the contact and appends it to the `MessageQueue`
through `client.enqueue` (client.go lines 1176-1181, an append under the
queue mutex). -/
def sendEnqueue (queue : List QueuedMessage) (dest : Contact) (m : PondMessage) (now : Nat) :
    List QueuedMessage :=
  queue ++ [{ id := m.id, toId := dest.id, server := dest.theirServer, created := now,
              sent := 0, acked := 0, message := m }]

/-- Structure `InboxMessage` (client.go lines 143-155): `message = none` means the
record is still sealed in `sealed`. -/
structure InboxMessage where
  id : Nat
  read : Bool
  receivedTime : Nat
  fromId : Nat
  sealed : Bytes
  acked : Bool
  message : Option PondMessage
deriving DecidableEq

/-- The record sent by `client.sendAck` (client.go lines 1183-1201): a
zero-length `RAW` body, a reply reference to the acknowledged message,
and `MyNextDh` computed by the same base-point rule as compose. -/
def sendAckMessage (dest : Contact) (origId : Option Nat) (id : Nat) (now : Nat) : PondMessage where
  id := id
  time := now
  body := []
  bodyEncoding := 0
  inReplyTo := origId
  myNextDh := scalarBaseMult dest.currentDHPrivate
  files := []

/-- The "ack" click handler of `showInbox` (client.go lines 1427-1434)
followed by `sendAck`: the inbox message's `acked` flag is set and a
zero-body record to the originating contact is built and enqueued.  The
contact of `msg.fromId` and the decoded record must exist (the Go code
dereferences both). -/
def ackInbound (queue : List QueuedMessage) (dest : Contact) (msg : InboxMessage)
    (m : PondMessage) (freshId : Nat) (now : Nat) :
    InboxMessage × List QueuedMessage :=
  let msg := { msg with acked := true }
  (msg, sendEnqueue queue dest (sendAckMessage dest m.id freshId now) now)

/-! ## Unsealing on handshake completion -/

/-- One step of the unseal loop of `newContactUI` (client.go lines
1881-1891) on a single inbox entry: a still-sealed message from the new
contact is decoded by the external unseal capability; the second
component reports whether the entry is removed from the inbox display
(empty decoded body — a pure ack carrier).  `unseal` is modelled from the
spec: `client.unsealMessage` is not in `src/`; per §4.3/§6 it decodes
the sealed ciphertext into the record. -/
def unsealStep (ct : Contact) (unsealFn : Bytes → PondMessage) (msg : InboxMessage) :
    InboxMessage × Bool :=
  if msg.message = none ∧ msg.fromId = ct.id then
    let m := unsealFn msg.sealed
    let msg := { msg with message := some m, sealed := [] }
    (msg, m.body.length = 0)
  else
    (msg, false)

/-- The whole unseal loop: every inbox entry is processed once; returns
the updated inbox and the ids removed from the inbox display. -/
def unsealPendingMessages (inbox : List InboxMessage) (ct : Contact)
    (unsealFn : Bytes → PondMessage) : List InboxMessage × List Nat :=
  let stepped := inbox.map (unsealStep ct unsealFn)
  (stepped.map Prod.fst, (stepped.filter Prod.snd).map fun p => p.1.id)

/-! ## Random ids -/

/-- The 64-bit value assembled from the `k`-th 8-byte block of the random
source (client.go lines 1939-1947 read 8 bytes and combine them
little-endian).  The source is a byte stream `Nat → Nat`. -/
def randIdBlock (stream : Nat → Nat) (k : Nat) : Nat :=
  (List.range 8).foldr (fun i acc => acc * 256 + stream (8 * k + i) % 256) 0

/-- Method `client.randId` (client.go lines 1939-1949): draw 8-byte blocks from
the random source, starting at block `start`, until one is nonzero and
return it; also returns the next unread block index.  The Go loop
terminates exactly when some block is nonzero, which is the hypothesis. -/
def randIdFrom (stream : Nat → Nat) (start : Nat)
    (h : ∃ k, randIdBlock stream (start + k) ≠ 0) : Nat × Nat :=
  (randIdBlock stream (start + Nat.find h), start + Nat.find h + 1)

/-! ## Shutdown ordering -/

/-- The externally visible steps of the shutdown path, in program order:
queueing the state snapshot to the persistence actor (`c.save()`,
modelled from the spec §6 as an asynchronous send on `writerChan`),
closing the two actor channels, the wait on `writerDone`, closing the UI
actions channel, and parking forever (`select {}`). -/
inductive ShutdownEvent where
  | saveState
  | closeWriterChan
  | awaitWriterDone
  | closeFetchNowChan
  | closeUIActions
  | parkForever
deriving DecidableEq

/-- Method `client.Shutdown` (client.go lines 2286-2294) as its step trace. -/
def shutdownTrace (writerChanOpen fetchNowChanOpen : Bool) : List ShutdownEvent :=
  (if writerChanOpen then [.closeWriterChan, .awaitWriterDone] else []) ++
    (if fetchNowChanOpen then [.closeFetchNowChan] else [])

/-- Method `client.ShutdownAndSuspend` (client.go lines 2277-2284) as its step
trace: save, `Shutdown`, close the UI actions channel, park forever. -/
def shutdownAndSuspendTrace (writerChanOpen fetchNowChanOpen : Bool) : List ShutdownEvent :=
  (if writerChanOpen then [.saveState] else []) ++
    shutdownTrace writerChanOpen fetchNowChanOpen ++ [.closeUIActions, .parkForever]

/-- Does the trace wait for the persistence actor's confirmation strictly
before closing the persistence actor's input channel? -/
def awaitsDurabilityBeforeWriterClose (tr : List ShutdownEvent) : Bool :=
  (tr.takeWhile fun e => e ≠ .closeWriterChan).contains .awaitWriterDone

/-- Does every occurrence of the persistence wait precede the closure
that stops the network actor? -/
def persistWaitBeforeNetworkStop (tr : List ShutdownEvent) : Bool :=
  (tr.takeWhile fun e => e ≠ .closeFetchNowChan).contains .awaitWriterDone

/-! ## Helper lemmas -/

theorem length_putField (b : Bytes) : (putField b).length = 4 + b.length := by
  simp [putField, encodeLen]
  omega

theorem length_marshalKeyExchange (kx : KeyExchange) :
    (marshalKeyExchange kx).length =
      28 + kx.publicKey.length + kx.identityPublic.length + kx.server.length +
        kx.dh.length + kx.group.length + kx.groupKey.length := by
  simp [marshalKeyExchange, encodeLen, length_putField]
  omega

/-- Success of `processKeyExchange` on a well-formed, correctly signed
handshake record. -/
theorem processKeyExchange_marshal_success (contact : Contact) (kx : KeyExchange)
    (priv : Bytes) (testing : Bool)
    (h1 : kx.publicKey.length = 32) (h2 : kx.identityPublic.length = 32)
    (h3 : kx.dh.length = 32) (h4 : kx.server.length < 4294967296)
    (h5 : kx.generation < 4294967296)
    (h6 : kx.publicKey = ed25519PubOf priv)
    (hsrv : parseServerOk kx.server testing = true)
    (g : Nat) (hg : groupUnmarshal kx.group = some g)
    (mk : MemberKey) (hmk : memberKeyUnmarshal g kx.groupKey = some mk)
    (hglen : kx.group.length < 4294967296) (hgklen : kx.groupKey.length < 4294967296)
    (hslen : (marshalKeyExchange kx).length < 4294967296) :
    (processKeyExchange contact
      (marshalSignedKeyExchange
        ⟨marshalKeyExchange kx, ed25519Sign priv (marshalKeyExchange kx)⟩) testing).2 =
      none := by
  have hsig : (ed25519Sign priv (marshalKeyExchange kx)).length = 64 := length_edDigest _ _
  have houter :
      unmarshalSignedKeyExchange
        (marshalSignedKeyExchange
          ⟨marshalKeyExchange kx, ed25519Sign priv (marshalKeyExchange kx)⟩) =
        some ⟨marshalKeyExchange kx, ed25519Sign priv (marshalKeyExchange kx)⟩ :=
    unmarshalSignedKeyExchange_marshal _ hslen (by rw [hsig]; norm_num)
  have hinner : unmarshalKeyExchange (marshalKeyExchange kx) = some kx :=
    unmarshalKeyExchange_marshal kx (by rw [h1]; norm_num) (by rw [h2]; norm_num) h4
      (by rw [h3]; norm_num) hglen hgklen h5
  have hver : ed25519Verify kx.publicKey (marshalKeyExchange kx)
      (ed25519Sign priv (marshalKeyExchange kx)) = true := by
    rw [h6]; exact ed25519Verify_sign _ _
  simp only [processKeyExchange, houter, hinner, hsig, h1, h2, h3, hver, hsrv, hg, hmk]
  simp

/-! ## Claim C3 -/

/-- C3: for every input to `processKeyExchange`, the eight validation
gates run in the spec's order and the operation fails at the first
violated gate with that gate's error class (malformed envelope or
wrong-length signature; malformed inner payload; wrong-length public key;
signature mismatch; unparseable server address; invalid group or
member-credential; wrong-length identity or DH value); the signature is
verified only after the public key has been extracted from the payload
itself, as `specApplyHandshakeGates` does by construction. -/
theorem C3_gates_in_spec_order (contact : Contact) (bytes : Bytes) (testing : Bool) :
    (processKeyExchange contact bytes testing).2.map kxErrorClass =
      specApplyHandshakeGates bytes testing := by
  simp only [processKeyExchange, specApplyHandshakeGates]
  repeat' split
  all_goals simp_all [kxErrorClass]

/-! ## Claim C1 -/

/-- A syntactically valid handshake whose signed payload does not match
its signature: the inner payload parses (32-byte public key, valid
server, valid group data) but the 64-byte signature is not the digest of
the payload. -/
def c1TamperedKx : KeyExchange where
  publicKey := List.replicate 32 9
  identityPublic := List.replicate 32 2
  server := pondScheme ++ [97]
  dh := List.replicate 32 3
  group := groupMarshal 7
  groupKey := memberKeyMarshal ⟨7, 9⟩
  generation := 1

def c1TamperedBytes : Bytes :=
  marshalSignedKeyExchange ⟨marshalKeyExchange c1TamperedKx, List.replicate 64 0⟩

set_option maxRecDepth 100000 in
/-- C1 counterexample: `processKeyExchange` is not all-or-nothing.  On a
fresh pending contact, a handshake envelope whose signed payload fails
signature verification returns the invalid-signature error and yet leaves
the contact's `theirPub` overwritten with the key extracted from the
payload. -/
theorem C1_counterexample :
    (processKeyExchange (mkPendingContact [98] 1) c1TamperedBytes true).2 =
        some KxError.sigMismatch ∧
      (processKeyExchange (mkPendingContact [98] 1) c1TamperedBytes true).1.theirPub ≠
        (mkPendingContact [98] 1).theirPub := by
  constructor
  · decide
  · decide

/-- C1 as amended: `processKeyExchange` is all-or-nothing only up to the
public-key length gate.  Always preserved are the contact's id, name,
pending flag, stored handshake bytes, issued group key, DH private
scalars and the peer's previous DH public value; on any error the
generation and the peer's current DH public value are also preserved; a
failure at one of the first four gates (envelope, signature length, inner
payload, public-key length) leaves the contact entirely unchanged.
Failures at later gates may leave `theirPub`, `theirServer`,
`myGroupKey` and `theirIdentityPublic` already overwritten. -/
theorem C1_all_or_nothing_amended (contact : Contact) (bytes : Bytes) (testing : Bool) :
    ((processKeyExchange contact bytes testing).1.id = contact.id ∧
      (processKeyExchange contact bytes testing).1.name = contact.name ∧
      (processKeyExchange contact bytes testing).1.isPending = contact.isPending ∧
      (processKeyExchange contact bytes testing).1.kxsBytes = contact.kxsBytes ∧
      (processKeyExchange contact bytes testing).1.groupKey = contact.groupKey ∧
      (processKeyExchange contact bytes testing).1.lastDHPrivate = contact.lastDHPrivate ∧
      (processKeyExchange contact bytes testing).1.currentDHPrivate =
        contact.currentDHPrivate ∧
      (processKeyExchange contact bytes testing).1.theirLastDHPublic =
        contact.theirLastDHPublic) ∧
    ((processKeyExchange contact bytes testing).2 ≠ none →
      (processKeyExchange contact bytes testing).1.generation = contact.generation ∧
        (processKeyExchange contact bytes testing).1.theirCurrentDHPublic =
          contact.theirCurrentDHPublic) ∧
    (∀ e, (processKeyExchange contact bytes testing).2 = some e →
      (e = KxError.unmarshalEnvelope ∨ e = KxError.badSignatureLength ∨
        e = KxError.unmarshalPayload ∨ e = KxError.badPublicKeyLength) →
      (processKeyExchange contact bytes testing).1 = contact) := by
  simp only [processKeyExchange]
  repeat' split
  all_goals simp_all

/-- Witness for the amended C1 at a concrete input: the empty byte string
fails at the envelope gate and the contact is entirely unchanged. -/
theorem C1_all_or_nothing_amended_witness :
    (processKeyExchange (mkPendingContact [119] 3) [] true).1.generation =
        (mkPendingContact [119] 3).generation ∧
      (processKeyExchange (mkPendingContact [119] 3) [] true).1 = mkPendingContact [119] 3 :=
  ⟨((C1_all_or_nothing_amended (mkPendingContact [119] 3) [] true).2.1 (by decide)).1,
    (C1_all_or_nothing_amended (mkPendingContact [119] 3) [] true).2.2
      KxError.unmarshalEnvelope (by decide) (Or.inl rfl)⟩

/-! ## Claim C2 -/

/-- C2: round-trip of the handshake.  For every local identity (with the
well-formedness the Go types and account creation establish: 32-byte
keys, the ed25519 keypair relation, `uint32` generation, and a parseable
home-server address) and every contact, the bytes produced by
`newKeyExchange` are accepted by the peer's `processKeyExchange` with no
error, and the `newContactUI` application step then clears the peer
contact's `pending` flag. -/
theorem C2_handshake_roundtrip (c : ClientState) (testing : Bool) (mine peer : Contact)
    (dhPriv : Bytes) (seed : Nat)
    (hWF : c.WF)
    (hsrv : parseServerOk c.server testing = true)
    (hslen : c.server.length < 4294967000)
    (hdh : dhPriv.length = 32) (hseed : seed < 4294967296) :
    (processKeyExchange peer (newKeyExchange c mine dhPriv seed).kxsBytes testing).2 =
        none ∧
      (newContactUIApply peer (newKeyExchange c mine dhPriv seed).kxsBytes testing).map
        Contact.isPending = some false := by
  obtain ⟨hpub, hip, hpriv, hgen, hgp⟩ := hWF
  have hbytes : (newKeyExchange c mine dhPriv seed).kxsBytes =
      marshalSignedKeyExchange
        ⟨marshalKeyExchange
            { publicKey := c.pub
              identityPublic := c.identityPublic
              server := c.server
              dh := scalarBaseMult dhPriv
              group := groupMarshal c.groupPriv
              groupKey := memberKeyMarshal ⟨c.groupPriv, seed⟩
              generation := c.generation },
          ed25519Sign c.priv
            (marshalKeyExchange
              { publicKey := c.pub
                identityPublic := c.identityPublic
                server := c.server
                dh := scalarBaseMult dhPriv
                group := groupMarshal c.groupPriv
                groupKey := memberKeyMarshal ⟨c.groupPriv, seed⟩
                generation := c.generation })⟩ := rfl
  have hnone :
      (processKeyExchange peer (newKeyExchange c mine dhPriv seed).kxsBytes testing).2 =
        none := by
    rw [hbytes]
    refine processKeyExchange_marshal_success peer _ c.priv testing hpub hip
      (by rw [length_scalarBaseMult, hdh]) (show c.server.length < 4294967296 by omega)
      hgen (hpriv ▸ rfl) hsrv
      c.groupPriv (groupUnmarshal_marshal c.groupPriv hgp)
      ⟨c.groupPriv, seed⟩ (memberKeyUnmarshal_marshal ⟨c.groupPriv, seed⟩ hgp hseed)
      ?_ ?_ ?_
    · simp [groupMarshal, encodeLen]
    · simp [memberKeyMarshal, encodeLen]
    · rw [length_marshalKeyExchange]
      simp only [hpub, hip, length_scalarBaseMult, hdh]
      simp [groupMarshal, memberKeyMarshal, encodeLen]
      omega
  refine ⟨hnone, ?_⟩
  rcases hp : processKeyExchange peer (newKeyExchange c mine dhPriv seed).kxsBytes
      testing with ⟨c', e⟩
  rw [hp] at hnone
  simp only at hnone
  subst hnone
  simp [newContactUIApply, hp]

/-- Witness for C2 at a concrete identity, contact and randomness. -/
theorem C2_handshake_roundtrip_witness :
    ClientState.WF
        { server := pondScheme ++ [97], identityPublic := List.replicate 32 2,
          groupPriv := 7, generation := 1, priv := List.replicate 64 1,
          pub := List.replicate 32 1 } ∧
      (processKeyExchange (mkPendingContact [98] 1)
          (newKeyExchange
            { server := pondScheme ++ [97], identityPublic := List.replicate 32 2,
              groupPriv := 7, generation := 1, priv := List.replicate 64 1,
              pub := List.replicate 32 1 }
            (mkPendingContact [97] 2) (List.replicate 32 3) 9).kxsBytes true).2 =
        none ∧
      (newContactUIApply (mkPendingContact [98] 1)
          (newKeyExchange
            { server := pondScheme ++ [97], identityPublic := List.replicate 32 2,
              groupPriv := 7, generation := 1, priv := List.replicate 64 1,
              pub := List.replicate 32 1 }
            (mkPendingContact [97] 2) (List.replicate 32 3) 9).kxsBytes true).map
        Contact.isPending = some false := by
  have hWF : ClientState.WF
      { server := pondScheme ++ [97], identityPublic := List.replicate 32 2,
        groupPriv := 7, generation := 1, priv := List.replicate 64 1,
        pub := List.replicate 32 1 } := by
    refine ⟨by decide, by decide, by decide, by decide, by decide⟩
  refine ⟨hWF, C2_handshake_roundtrip _ true (mkPendingContact [97] 2)
    (mkPendingContact [98] 1) (List.replicate 32 3) 9 hWF (by decide) (by decide)
    (by decide) (by decide)⟩

/-! ## Claim C4 -/

/-- C4 counterexample: the compose path does not rotate the contact's
current DH private scalar, so two successive composed messages to the
same contact (different ids, times and bodies) embed the same DH public
value, contradicting "each successive composed message to the same
contact embeds a new DH public value". -/
theorem C4_counterexample :
    (composeMessage (mkPendingContact [99] 4) 5 1000 [104, 105] none []).myNextDh =
      (composeMessage (mkPendingContact [99] 4) 6 1001 [121, 111] none []).myNextDh :=
  rfl

/-- C4 as amended: every composed record carries the supplied fresh
random id, the current time, the optional reply reference, and the DH
public value obtained by base-point multiplication of the contact's
current DH private scalar; the compose path itself does not rotate the
scalar (its output is a function of the unchanged contact), so a new DH
public value appears only after the scalar is advanced elsewhere. -/
theorem C4_compose_fields_amended (dest : Contact) (id now : Nat) (body : Bytes)
    (inReplyTo : Option Nat) (attachments : List Attachment) :
    (composeMessage dest id now body inReplyTo attachments).id = id ∧
      (composeMessage dest id now body inReplyTo attachments).time = now ∧
      (composeMessage dest id now body inReplyTo attachments).inReplyTo = inReplyTo ∧
      (composeMessage dest id now body inReplyTo attachments).myNextDh =
        scalarBaseMult dest.currentDHPrivate :=
  ⟨rfl, rfl, rfl, rfl⟩

/-! ## Claim C5 -/

/-- C5 as amended: `usageString` reports overflow exactly when the
serialized form of its candidate message (id 0, time `1 << 62`, reply id
1, all-zero DH value, the body and attachments) is strictly larger than
the maximum serialized-message constant — so a candidate exactly at the
bound is accepted and one byte larger is rejected.  The candidate,
however, is not the record actually sent (which carries the real id,
time and reply id), so the estimate need not agree with the sent form's
size at the boundary. -/
theorem C5_usage_boundary_amended (body : Bytes) (isReply : Bool)
    (attachments : List Attachment) :
    usageStringOver body isReply attachments = false ↔
      serializedMessageSize (usageCandidate body isReply attachments) ≤
        maxSerializedMessage := by
  simp [usageStringOver]

/-- C5 counterexample: the usage estimate and the serialized form
actually sent disagree at the boundary.  With a 3947-byte body and a
reply, the candidate serializes to exactly the maximum (the gate
accepts), while the record the send path builds for it — with a large
real id, a realistic timestamp and a large real reply id — serializes to
14 bytes more than the maximum. -/
theorem C5_counterexample :
    usageStringOver (List.replicate 3947 7) true [] = false ∧
      serializedMessageSize (usageCandidate (List.replicate 3947 7) true []) =
        maxSerializedMessage ∧
      serializedMessageSize
          (composeMessage (mkPendingContact [100] 6) 9223372036854775808 1700000000
            (List.replicate 3947 7) (some 9223372036854775808) []) =
        maxSerializedMessage + 14 := by
  have v0 : varintSize 0 = 1 := rfl
  have v1 : varintSize 1 = 1 := rfl
  have v32 : varintSize 32 = 1 := rfl
  have v3947 : varintSize 3947 = 2 := rfl
  have vt : varintSize 4611686018427387904 = 9 := rfl
  have vid : varintSize 9223372036854775808 = 10 := rfl
  have vnow : varintSize 1700000000 = 5 := rfl
  have hlen : (List.replicate 3947 7 : Bytes).length = 3947 := by
    rw [List.length_replicate]
  have hcandGen : ∀ b : Bytes, b.length = 3947 →
      serializedMessageSize (usageCandidate b true []) = 4000 := by
    intro b hb
    simp [serializedMessageSize, usageCandidate, lenFieldSize, hb, v0, v1, v3947, vt, v32]
  have hactGen : ∀ b : Bytes, b.length = 3947 →
      serializedMessageSize
        (composeMessage (mkPendingContact [100] 6) 9223372036854775808 1700000000
          b (some 9223372036854775808) []) = 4014 := by
    intro b hb
    have hcb : composeBody b = b := by simp [composeBody, hb]
    simp [serializedMessageSize, composeMessage, hcb, lenFieldSize, hb, vid, vnow, v0,
      v32, v3947, mkPendingContact, length_scalarBaseMult]
  have hcand := hcandGen _ hlen
  have hactual := hactGen _ hlen
  refine ⟨?_, by rw [hcand]; rfl, by rw [hactual]; rfl⟩
  unfold usageStringOver
  rw [hcand]
  rfl

/-! ## Claim C7 -/

/-- C7: acknowledging an inbound message sets its `acked` flag, and
composes and enqueues a record with a zero-length body addressed to the
contact the message came from (the `contacts` lookup of its origin id),
whose next-DH value follows the same base-point rule as the compose
path. -/
theorem C7_ack_inbound (contacts : Nat → Option Contact) (queue : List QueuedMessage)
    (dest : Contact) (msg : InboxMessage) (m : PondMessage) (freshId now : Nat)
    (horigin : contacts msg.fromId = some dest) (hm : msg.message = some m) :
    (ackInbound queue dest msg m freshId now).1.acked = true ∧
      (ackInbound queue dest msg m freshId now).2 =
        queue ++ [{ id := freshId, toId := dest.id, server := dest.theirServer,
                    created := now, sent := 0, acked := 0,
                    message := sendAckMessage dest m.id freshId now }] ∧
      (sendAckMessage dest m.id freshId now).body.length = 0 ∧
      (sendAckMessage dest m.id freshId now).inReplyTo = m.id ∧
      (∀ body inReplyTo attachments,
        (sendAckMessage dest m.id freshId now).myNextDh =
          (composeMessage dest freshId now body inReplyTo attachments).myNextDh) :=
  ⟨rfl, rfl, rfl, rfl, fun _ _ _ => rfl⟩

/-- Witness for C7 at a concrete contact, message and queue. -/
theorem C7_ack_inbound_witness :
    (ackInbound [] (mkPendingContact [101] 8)
          { id := 11, read := true, receivedTime := 50, fromId := 8, sealed := [],
            acked := false,
            message := some
              { id := 21, time := 40, body := [104], bodyEncoding := 0,
                inReplyTo := none, myNextDh := [], files := [] } }
          { id := 21, time := 40, body := [104], bodyEncoding := 0, inReplyTo := none,
            myNextDh := [], files := [] } 33 60).1.acked = true ∧
      (sendAckMessage (mkPendingContact [101] 8) (some 21) 33 60).body.length = 0 := by
  have h := C7_ack_inbound (fun i => if i = 8 then some (mkPendingContact [101] 8) else none)
    [] (mkPendingContact [101] 8)
    { id := 11, read := true, receivedTime := 50, fromId := 8, sealed := [],
      acked := false,
      message := some
        { id := 21, time := 40, body := [104], bodyEncoding := 0, inReplyTo := none,
          myNextDh := [], files := [] } }
    { id := 21, time := 40, body := [104], bodyEncoding := 0, inReplyTo := none,
      myNextDh := [], files := [] } 33 60 (by decide) rfl
  exact ⟨h.1, h.2.2.1⟩

/-! ## Claim C10 -/

/-- C10: a user-composed message never has an empty body — a zero-length
input body is replaced by a single space (byte 32) before the record is
built — while the acknowledgement path always produces a record with a
zero-length body. -/
theorem C10_compose_body_nonempty (dest : Contact) (id now : Nat) (body : Bytes)
    (inReplyTo : Option Nat) (attachments : List Attachment) (origId : Option Nat) :
    0 < (composeMessage dest id now body inReplyTo attachments).body.length ∧
      (composeMessage dest id now [] inReplyTo attachments).body = [32] ∧
      (sendAckMessage dest origId id now).body.length = 0 := by
  refine ⟨?_, rfl, rfl⟩
  simp only [composeMessage, composeBody]
  split
  · simp
  · rename_i h
    simpa using List.length_pos.mpr (by simpa using h)

/-! ## Claim C6 -/

/-- C6: after a contact's handshake completes, the unseal loop processes
every inbox entry exactly once: each entry keeps its id, received time,
read and acked flags and origin; no message from that contact remains
sealed; a previously sealed message from the contact becomes the decoded
record the unseal capability yields; entries of other contacts (or
already decoded ones) are untouched; and the entries removed from the
inbox display are exactly the previously sealed ones from that contact
whose decoded body is empty. -/
theorem C6_unseal_on_handshake_complete (inbox : List InboxMessage) (ct : Contact)
    (unsealFn : Bytes → PondMessage) :
    List.Forall₂ (fun msg res =>
        res.id = msg.id ∧ res.receivedTime = msg.receivedTime ∧ res.read = msg.read ∧
          res.acked = msg.acked ∧ res.fromId = msg.fromId ∧
          (msg.fromId = ct.id → res.message ≠ none) ∧
          (msg.message = none → msg.fromId = ct.id →
            res.message = some (unsealFn msg.sealed)) ∧
          (¬(msg.message = none ∧ msg.fromId = ct.id) → res = msg))
      inbox (unsealPendingMessages inbox ct unsealFn).1 ∧
    (unsealPendingMessages inbox ct unsealFn).2 =
      (inbox.filter fun msg =>
        decide (msg.message = none) && decide (msg.fromId = ct.id) &&
          decide ((unsealFn msg.sealed).body.length = 0)).map InboxMessage.id := by
  induction inbox with
  | nil => exact ⟨List.Forall₂.nil, rfl⟩
  | cons head tail ih =>
    obtain ⟨ih1, ih2⟩ := ih
    have hstep : unsealPendingMessages (head :: tail) ct unsealFn =
        ((unsealStep ct unsealFn head).1 :: (unsealPendingMessages tail ct unsealFn).1,
          (if (unsealStep ct unsealFn head).2 = true
            then [(unsealStep ct unsealFn head).1.id] else []) ++
            (unsealPendingMessages tail ct unsealFn).2) := by
      simp only [unsealPendingMessages, List.map_cons, List.filter_cons]
      split <;> simp
    rw [hstep]
    by_cases hcase : head.message = none ∧ head.fromId = ct.id
    · obtain ⟨hn, hf⟩ := hcase
      have hsv : unsealStep ct unsealFn head =
          ({ head with message := some (unsealFn head.sealed), sealed := [] },
            decide ((unsealFn head.sealed).body.length = 0)) := by
        simp [unsealStep, hn, hf]
      constructor
      · refine List.forall₂_cons.mpr ⟨?_, ih1⟩
        rw [hsv]
        refine ⟨rfl, rfl, rfl, rfl, rfl, fun _ => by simp, fun _ _ => rfl, fun hc => ?_⟩
        exact absurd ⟨hn, hf⟩ hc
      · rw [hsv]
        simp only [List.filter_cons, hn, hf]
        by_cases hb : (unsealFn head.sealed).body.length = 0
        · simp [hb, ih2]
        · simp [hb, ih2]
    · have hsv : unsealStep ct unsealFn head = (head, false) := by
        simp only [unsealStep]
        rw [if_neg hcase]
      constructor
      · refine List.forall₂_cons.mpr ⟨?_, ih1⟩
        rw [hsv]
        refine ⟨rfl, rfl, rfl, rfl, rfl, ?_, ?_, fun _ => rfl⟩
        · intro hfrom
          intro habs
          exact hcase ⟨habs, hfrom⟩
        · intro hn hf
          exact absurd ⟨hn, hf⟩ hcase
      · rw [hsv]
        have hp : (decide (head.message = none) && decide (head.fromId = ct.id) &&
            decide ((unsealFn head.sealed).body.length = 0)) = false := by
          rcases not_and_or.mp hcase with h | h
          · simp [h]
          · simp [h]
        simp only [List.filter_cons]
        simp only [List.length_eq_zero] at hp ih2 ⊢
        simp [hp, ih2]

/-! ## Claim C8 -/

/-- C8 counterexample: id uniqueness is not enforced.  With a random
source whose 8-byte blocks repeat the value 5, two successive `randId`
draws both return 5, and two contacts created from those draws share the
same id. -/
theorem C8_counterexample :
    (randIdFrom (fun i => if i % 8 = 0 then 5 else 0) 0
        ⟨0, by decide⟩).1 = 5 ∧
      (randIdFrom (fun i => if i % 8 = 0 then 5 else 0) 1
        ⟨0, by decide⟩).1 = 5 ∧
      (mkPendingContact [102]
          (randIdFrom (fun i => if i % 8 = 0 then 5 else 0) 0 ⟨0, by decide⟩).1).id =
        (mkPendingContact [115]
          (randIdFrom (fun i => if i % 8 = 0 then 5 else 0) 1 ⟨0, by decide⟩).1).id := by
  have h0 : (randIdFrom (fun i => if i % 8 = 0 then 5 else 0) 0 ⟨0, by decide⟩).1 = 5 := by
    have hf : Nat.find (⟨0, by decide⟩ :
        ∃ k, randIdBlock (fun i => if i % 8 = 0 then 5 else 0) (0 + k) ≠ 0) = 0 := by
      rw [Nat.find_eq_zero]
      decide
    simp only [randIdFrom, hf]
    decide
  have h1 : (randIdFrom (fun i => if i % 8 = 0 then 5 else 0) 1 ⟨0, by decide⟩).1 = 5 := by
    have hf : Nat.find (⟨0, by decide⟩ :
        ∃ k, randIdBlock (fun i => if i % 8 = 0 then 5 else 0) (1 + k) ≠ 0) = 0 := by
      rw [Nat.find_eq_zero]
      decide
    simp only [randIdFrom, hf]
    decide
  refine ⟨h0, h1, ?_⟩
  simp only [mkPendingContact]
  rw [h0, h1]

/-- C8 as amended: every id `randId` produces is non-zero (for any random
source on which the Go loop terminates, i.e. one offering a nonzero
8-byte block); uniqueness of ids across draws is not enforced by the
code and can fail when the source repeats a block. -/
theorem C8_randId_nonzero_amended (stream : Nat → Nat) (start : Nat)
    (h : ∃ k, randIdBlock stream (start + k) ≠ 0) :
    (randIdFrom stream start h).1 ≠ 0 :=
  Nat.find_spec h

/-- Witness for the amended C8 on a concrete all-ones random source. -/
theorem C8_randId_nonzero_amended_witness :
    (∃ k, randIdBlock (fun _ => 1) (0 + k) ≠ 0) ∧
      (randIdFrom (fun _ => 1) 0 ⟨0, by decide⟩).1 ≠ 0 :=
  ⟨⟨0, by decide⟩, C8_randId_nonzero_amended (fun _ => 1) 0 ⟨0, by decide⟩⟩

/-! ## Claim C9 -/

/-- C9 counterexample: the shutdown path does not await the persistence
actor's durable-write confirmation before closing the persistence input
channel.  The concrete trace (both channels open) is save, close writer
channel, await writer done, close fetch channel, close UI actions, park —
so no `awaitWriterDone` occurs before `closeWriterChan`. -/
theorem C9_counterexample :
    shutdownAndSuspendTrace true true =
        [ShutdownEvent.saveState, ShutdownEvent.closeWriterChan,
          ShutdownEvent.awaitWriterDone, ShutdownEvent.closeFetchNowChan,
          ShutdownEvent.closeUIActions, ShutdownEvent.parkForever] ∧
      awaitsDurabilityBeforeWriterClose (shutdownAndSuspendTrace true true) = false := by
  constructor
  · rfl
  · rfl

/-- C9 as amended: on shutdown the state is queued to the persistence
actor, the persistence actor is then stopped by closing its input
channel, and the single completion acknowledgement — which also confirms
durability of all pending writes — is awaited; only then is the network
actor's channel closed, then the UI channel, and the process parks
forever accepting no further events.  The persistence wait thus completes
before the closures that stop the other actors, but it happens after,
not before, the closure of the persistence input itself. -/
theorem C9_shutdown_order_amended :
    shutdownAndSuspendTrace true true =
        [ShutdownEvent.saveState, ShutdownEvent.closeWriterChan,
          ShutdownEvent.awaitWriterDone, ShutdownEvent.closeFetchNowChan,
          ShutdownEvent.closeUIActions, ShutdownEvent.parkForever] ∧
      persistWaitBeforeNetworkStop (shutdownAndSuspendTrace true true) = true ∧
      (shutdownAndSuspendTrace true true).getLast? = some ShutdownEvent.parkForever := by
  exact ⟨rfl, rfl, rfl⟩

end Pond
